import Mathlib

/-!
# stompy-cli — verification of the core spec claims

Shallow embedding of the claim-relevant parts of the `stompy-cli` Go
repository: token lifecycle (internal/auth), the resilient transport
(internal/api/client.go), version compatibility (internal/api/compat.go),
the OAuth callback handler and PKCE generator (internal/auth), and the
self-update engine (internal/update).

Conventions used throughout:
- instants of time are integer seconds since the Unix epoch; Go
  `time.Duration` constants are translated to seconds;
- network and filesystem effects are passed in explicitly as oracle
  parameters (the outcome each fallible operation would have), so every
  definition is a pure, executable function;
- Go `string` is Lean `String`, Go byte slices are `List Nat` with each
  element below 256.
-/

/-! ## Token lifecycle — internal/auth/token.go -/

/-- Constant `TokenExpiryBuffer = 5 * time.Minute`, in seconds. -/
def tokenExpiryBuffer : Int := 5 * 60

/-- Function `IsExpired` from internal/auth/token.go:
`time.Now().After(expiry.Add(-TokenExpiryBuffer))`.
Go's `After` is a strict comparison, so this is `now > expiry - buffer`. -/
def isExpired (now expiry : Int) : Bool :=
  expiry - tokenExpiryBuffer < now

/-! ## Version compatibility — internal/api/compat.go -/

/-- Digit-string to number; `none` when empty or a non-digit appears.
Helper for `atoi`. -/
def natOfDigits (l : List Char) : Option Nat :=
  if l = [] then none
  else if l.all (fun c => c.isDigit) then
    some (l.foldl (fun a c => a * 10 + (c.toNat - 48)) 0)
  else none

/-- Go `strconv.Atoi`: optional sign followed by one or more digits.
(Go's machine-int overflow bound is not modelled; version components
stay far below it.) -/
def atoi (s : List Char) : Option Int :=
  match s with
  | '+' :: rest => (natOfDigits rest).map (fun n => (n : Int))
  | '-' :: rest => (natOfDigits rest).map (fun n => -(n : Int))
  | l => (natOfDigits l).map (fun n => (n : Int))

/-- Go `strings.TrimPrefix(v, "v")`. -/
def trimLeadingV (v : List Char) : List Char :=
  match v with
  | 'v' :: rest => rest
  | l => l

/-- Go `strings.Split` on the dot separator (before the SplitN count cap). -/
def splitOnDot (v : List Char) : List (List Char) :=
  match v with
  | [] => [[]]
  | c :: rest =>
    let r := splitOnDot rest
    if c = '.' then [] :: r
    else
      match r with
      | [] => [[c]]
      | h :: t => (c :: h) :: t

/-- Re-join parts with dots (used to rebuild the third `SplitN` part). -/
def joinDots (ps : List (List Char)) : List Char :=
  match ps with
  | [] => []
  | [x] => x
  | x :: rest => x ++ '.' :: joinDots rest

/-- Go `strings.SplitN(v, ".", 3)`: split at the first two dots, the
remainder (dots included) stays in the third part. -/
def splitDotN3 (v : List Char) : List (List Char) :=
  let ps := splitOnDot v
  if ps.length ≤ 3 then ps
  else ps.take 2 ++ [joinDots (ps.drop 2)]

/-- The pre-release strip inside `parseSemver`:
`if idx := strings.IndexAny(p, "-+"); idx >= 0 { p = p[:idx] }` —
keep the part before the first `-` or `+`. -/
def stripPreRelease (p : List Char) : List Char :=
  p.takeWhile (fun c => c != '-' && c != '+')

/-- Function `parseSemver` from internal/api/compat.go. -/
def parseSemver (v : String) : Option (Int × Int × Int) :=
  match splitDotN3 (trimLeadingV v.toList) with
  | [p1, p2, p3] =>
    match atoi (stripPreRelease p1), atoi (stripPreRelease p2),
          atoi (stripPreRelease p3) with
    | some a, some b, some c => some (a, b, c)
    | _, _, _ => none
  | _ => none

/-- Function `compareSemver` from internal/api/compat.go: lexicographic on
(major, minor, patch); -1 / 0 / 1. -/
def compareSemver (a b : Int × Int × Int) : Int :=
  if a.1 < b.1 then -1 else if b.1 < a.1 then 1
  else if a.2.1 < b.2.1 then -1 else if b.2.1 < a.2.1 then 1
  else if a.2.2 < b.2.2 then -1 else if b.2.2 < a.2.2 then 1
  else 0

/-- The warning text produced by `CheckCompat` (its `fmt.Sprintf`). -/
def compatWarning (cliVersion minRequired : String) : String :=
  "Warning: stompy-cli " ++ cliVersion ++ " is below minimum supported version "
    ++ minRequired ++ ". Run \u0027stompy update\u0027 to upgrade."

/-- Function `CheckCompat` from internal/api/compat.go. -/
def checkCompat (cliVersion minRequired : String) : String :=
  if cliVersion = "" ∨ cliVersion = "dev" ∨ minRequired = "" then ""
  else
    match parseSemver cliVersion, parseSemver minRequired with
    | some c, some m =>
        if compareSemver c m < 0 then compatWarning cliVersion minRequired else ""
    | _, _ => ""

/-- Boolean substring check on character lists (used only to state the
"warning contains ..." parts of the spec's testable properties). -/
def hasSubstr (needle : List Char) (hay : List Char) : Bool :=
  match hay with
  | [] => needle.isEmpty
  | _ :: t => needle.isPrefixOf hay || hasSubstr needle t

/-! ## Resilient transport — internal/api/client.go

`Client.Do` is embedded as a pure loop over an oracle giving the outcome
of each attempt's HTTP round-trip (`c.HTTPClient.Do`): either a
transport-level error or a response with a status code.  The embedding
records, per attempt, whether the `Cache-Control: no-cache` header was
attached (the `c.NoCache` one-shot directive), the sleeps performed, and
the final value of the `NoCache` field.  Reading the response body is
assumed to succeed (its failure path returns early and is out of scope
of the claims), and the compatibility-header handling is modelled
separately through `checkCompat`. -/

/-- Constant `maxRetries = 2`. -/
def maxRetries : Nat := 2

/-- Constant `retryBaseDelay = 1 * time.Second`, in seconds. -/
def retryBaseDelay : Nat := 1

/-- Function `isIdempotent` from internal/api/client.go. -/
def isIdempotent (method : String) : Bool :=
  method == "GET" || method == "HEAD" || method == "PUT"
    || method == "DELETE" || method == "OPTIONS"

/-- Function `isRetryableStatus` from internal/api/client.go: 502, 503, 504. -/
def isRetryableStatus (code : Nat) : Bool :=
  code == 502 || code == 503 || code == 504

/-- Outcome of one attempt's round-trip. -/
inductive HTTPOutcome where
  | transportError : HTTPOutcome
  | response (status : Nat) : HTTPOutcome
deriving DecidableEq

/-- Did the attempt fail before receiving any HTTP response? -/
def isTransport : HTTPOutcome → Bool
  | .transportError => true
  | .response _ => false

/-- Go `Client.Do` treats an outcome as retryable when it is a transport
error or a status in 502/503/504. -/
def retryableOutcome : HTTPOutcome → Bool
  | .transportError => true
  | .response s => isRetryableStatus s

/-- The error `Client.Do` records for a failed attempt (`lastErr`):
a wrapped transport error, or an `APIError` carrying the status. -/
inductive DoError where
  | transport : DoError
  | api (status : Nat) : DoError
deriving DecidableEq

/-- The `lastErr` value a retryable outcome leaves behind. -/
def errOfOutcome : HTTPOutcome → DoError
  | .transportError => .transport
  | .response s => .api s

/-- The overall result of `Client.Do`: a successful status, or the error
it returns (Go's `([]byte, int, error)` with the body left abstract). -/
inductive DoResult where
  | ok (status : Nat) : DoResult
  | err (e : DoError) : DoResult
deriving DecidableEq

/-- Observable trace of one `Client.Do` call: its result, how many
attempts it made, the sleeps between attempts (seconds), whether each
attempt carried `Cache-Control: no-cache`, and the final `NoCache`
field. -/
structure DoTrace where
  result : DoResult
  attempts : Nat
  delays : List Nat
  cacheHeader : List Bool
  noCacheAfter : Bool
deriving DecidableEq

/-- One iteration of the `Client.Do` retry loop, factored over the
attempt's outcome.  `ds` is the sleep performed before this attempt,
`noCache` the current `c.NoCache`, `contT` the rest of the loop after a
transport error (NoCache NOT reset — the reset happens only after a
response body is read), and `contR` the rest of the loop after a
retryable status (NoCache reset to false, `lastErr` an `APIError` with
that status). -/
def doStep (noCache : Bool) (ds : List Nat) (contT : DoTrace)
    (contR : Nat → DoTrace) : HTTPOutcome → DoTrace
  | .transportError =>
    { result := contT.result, attempts := contT.attempts + 1,
      delays := ds ++ contT.delays, cacheHeader := noCache :: contT.cacheHeader,
      noCacheAfter := contT.noCacheAfter }
  | .response status =>
    if isRetryableStatus status then
      { result := (contR status).result, attempts := (contR status).attempts + 1,
        delays := ds ++ (contR status).delays,
        cacheHeader := noCache :: (contR status).cacheHeader,
        noCacheAfter := (contR status).noCacheAfter }
    else if status < 200 ∨ 300 ≤ status then
      { result := .err (.api status), attempts := 1, delays := ds,
        cacheHeader := [noCache], noCacheAfter := false }
    else
      { result := .ok status, attempts := 1, delays := ds,
        cacheHeader := [noCache], noCacheAfter := false }

/-- The retry loop of `Client.Do` (internal/api/client.go, the
`for attempt := 0; attempt <= retries; attempt++` loop).  `fuel` is the
number of attempts still allowed (`retries + 1 - attempt`); `noCache`
is the current value of `c.NoCache`, reset to `false` after an attempt's
response body is read; `lastErr` is the error recorded by the previous
failed attempt (surfaced when the loop exhausts its attempts). -/
def doLoop (oracle : Nat → HTTPOutcome) : Nat → Nat → Bool → DoError → DoTrace
  | 0, _, noCache, lastErr =>
    { result := .err lastErr, attempts := 0, delays := [],
      cacheHeader := [], noCacheAfter := noCache }
  | fuel + 1, attempt, noCache, _ =>
    doStep noCache (if attempt = 0 then [] else [retryBaseDelay * 2 ^ (attempt - 1)])
      (doLoop oracle fuel (attempt + 1) noCache .transport)
      (fun status => doLoop oracle fuel (attempt + 1) false (.api status))
      (oracle attempt)

/-- Method `Client.Do`: non-idempotent methods get no retries, idempotent ones
get `maxRetries`. -/
def runDo (method : String) (noCache : Bool) (oracle : Nat → HTTPOutcome) : DoTrace :=
  let retries := if isIdempotent method then maxRetries else 0
  doLoop oracle (retries + 1) 0 noCache .transport

/-- Server answering 502 on the first attempt, then 200. -/
def oracle502then200 : Nat → HTTPOutcome :=
  fun n => if n = 0 then .response 502 else .response 200

/-- Server always answering 502. -/
def oracleAlways502 : Nat → HTTPOutcome := fun _ => .response 502

/-- Server always answering 503. -/
def oracleAlways503 : Nat → HTTPOutcome := fun _ => .response 503

/-- Server always answering 404. -/
def oracleAlways404 : Nat → HTTPOutcome := fun _ => .response 404

/-- Transport failure on the first attempt, then 200. -/
def oracleTransportThen200 : Nat → HTTPOutcome :=
  fun n => if n = 0 then .transportError else .response 200

/-- The sequence of `Cache-Control: no-cache` header flags a call with
the directive set produces over `n` attempts starting at attempt `a`:
the header stays attached while attempts keep failing at the transport
level, and disappears for every attempt after the first one that
received an HTTP response. -/
def headerSeq (oracle : Nat → HTTPOutcome) : Nat → Nat → List Bool
  | _, 0 => []
  | a, n + 1 =>
    true :: (match oracle a with
      | .transportError => headerSeq oracle (a + 1) n
      | .response _ => List.replicate n false)

/-- All of attempts `a, a+1, ..., a+n-1` failed at the transport level. -/
def allTransportFrom (oracle : Nat → HTTPOutcome) : Nat → Nat → Bool
  | _, 0 => true
  | a, n + 1 => isTransport (oracle a) && allTransportFrom oracle (a + 1) n

/-- The sleeps of attempts `a, ..., a+n-1` (each sleeps
`retryBaseDelay * 2^(attempt-1)` before its request). -/
def delaysFrom (a n : Nat) : List Nat :=
  match n with
  | 0 => []
  | n + 1 => (retryBaseDelay * 2 ^ (a - 1)) :: delaysFrom (a + 1) n

/-! ## OAuth callback handler — `StartCallbackServer` (internal/auth)

The `/callback` handler is embedded as a pure function from the request's
query parameters to the HTTP status it writes and the values it sends on
the buffered (size-1) code channel.  Go's `r.URL.Query().Get` returns
`""` for an absent parameter, so an absent parameter and an empty one are
both modelled as `""`. -/

/-- Query parameters of one `/callback` request. -/
structure CallbackQuery where
  state : String
  code : String
  errMsg : String
  errDesc : String
deriving DecidableEq

/-- The `/callback` handler registered by `StartCallbackServer`:
state mismatch → 400, nothing delivered; missing code (provider error)
→ 400, nothing delivered; otherwise 200 and the code is sent once. -/
def handleCallback (expectedState : String) (q : CallbackQuery) : Nat × List String :=
  if q.state ≠ expectedState then (400, [])
  else if q.code = "" then (400, [])
  else (200, [q.code])

/-! ## Token lifecycle — `GetValidToken` (internal/auth/token.go) and
`resolveAuthToken` (cmd/root.go)

The Config collaborator is a record of the persisted scalar values the
auth code reads and writes; `RefreshToken`'s network exchange is an
oracle parameter (`some tr` when the POST returns 200 with a decodable
body, `none` for a transport failure, non-200 status or malformed
JSON). -/

/-- Record `TokenResponse` (internal/auth, the OAuth token endpoint's JSON). -/
structure TokenResponse where
  accessToken : String
  refreshToken : String
  expiresIn : Int
  tokenType : String
deriving DecidableEq

/-- Persisted config values used by the auth code (viper keys
`auth.access_token`, `auth.refresh_token`, `auth.token_expiry`,
`auth.email`, `auth.user_id`, `api_key`). -/
structure ConfigState where
  accessToken : String
  refreshToken : String
  tokenExpiry : Int
  email : String
  userID : String
  apiKey : String
deriving DecidableEq

/-- Function `config.SaveTokens`: sets the five auth values and writes the file
(the file write itself is modelled by the caller's `saveOk` flag). -/
def saveTokens (cfg : ConfigState) (access refresh : String) (expiry : Int)
    (email userID : String) : ConfigState :=
  { cfg with accessToken := access, refreshToken := refresh,
             tokenExpiry := expiry, email := email, userID := userID }

/-- Error classes of `GetValidToken` / `resolveAuthToken`. -/
inductive TokenErr where
  | notAuthenticated
  | expiredNoRefresh
  | refreshFailed
  | saveFailed
deriving DecidableEq

/-- A token-resolution result. -/
inductive TokenResult where
  | ok (token : String) : TokenResult
  | err (e : TokenErr) : TokenResult
deriving DecidableEq

/-- Result of one token-resolution run: the token or error, the config
state left on disk, and whether the refresh network call was made. -/
structure TokenTrace where
  result : TokenResult
  cfg : ConfigState
  refreshCalled : Bool
deriving DecidableEq

/-- Function `GetValidToken` from internal/auth/token.go.  `refreshOutcome` is
what `RefreshToken(apiURL, rt)` would return; `saveOk` is whether the
config-file write inside `SaveTokens` succeeds (on failure the on-disk
state is unchanged and the error is surfaced). -/
def getValidToken (cfg : ConfigState) (now : Int)
    (refreshOutcome : Option TokenResponse) (saveOk : Bool) : TokenTrace :=
  if cfg.accessToken = "" then ⟨.err .notAuthenticated, cfg, false⟩
  else if isExpired now cfg.tokenExpiry = false then ⟨.ok cfg.accessToken, cfg, false⟩
  else if cfg.refreshToken = "" then ⟨.err .expiredNoRefresh, cfg, false⟩
  else
    match refreshOutcome with
    | none => ⟨.err .refreshFailed, cfg, true⟩
    | some tr =>
      if saveOk then
        ⟨.ok tr.accessToken,
         saveTokens cfg tr.accessToken tr.refreshToken (now + tr.expiresIn) cfg.email "",
         true⟩
      else ⟨.err .saveFailed, cfg, true⟩

/-- Function `resolveAuthToken` from cmd/root.go: the `--api-key` flag, then the
`STOMPY_API_KEY` environment variable, then the stored OAuth token
(with silent refresh-and-persist; a failed refresh falls through), then
the static `api_key` config value, else a not-authenticated error.
The `SaveTokens` error is discarded by the source (`_ =`), so the write
is modelled as succeeding. -/
def resolveAuthToken (flagAPIKey envKey : String) (cfg : ConfigState) (now : Int)
    (refreshOutcome : Option TokenResponse) : TokenTrace :=
  if flagAPIKey ≠ "" then ⟨.ok flagAPIKey, cfg, false⟩
  else if envKey ≠ "" then ⟨.ok envKey, cfg, false⟩
  else
    let fallback : Bool → TokenTrace := fun called =>
      if cfg.apiKey ≠ "" then ⟨.ok cfg.apiKey, cfg, called⟩
      else ⟨.err .notAuthenticated, cfg, called⟩
    if cfg.accessToken ≠ "" then
      if isExpired now cfg.tokenExpiry = false then ⟨.ok cfg.accessToken, cfg, false⟩
      else if cfg.refreshToken ≠ "" then
        match refreshOutcome with
        | some tr =>
          ⟨.ok tr.accessToken,
           saveTokens cfg tr.accessToken tr.refreshToken (now + tr.expiresIn) cfg.email "",
           true⟩
        | none => fallback true
      else fallback false
    else fallback false

/-! ## Update check — `CheckForUpdate` (internal/update/update.go) -/

/-- A GitHub release as far as `CheckForUpdate` reads it (the asset list
is ignored by the check). -/
structure Release where
  tagName : String
  htmlURL : String
deriving DecidableEq

/-- Record `VersionCache` from internal/update/update.go. -/
structure VersionCache where
  lastCheck : Int
  latestVersion : String
  releaseURL : String
deriving DecidableEq

/-- Constant `checkInterval = 24 * time.Hour`, in seconds. -/
def checkInterval : Int := 24 * 60 * 60

/-- What the release-index GET produced: a transport error, or a status
plus the decoded body (`none` when the JSON does not decode). -/
inductive FetchOutcome where
  | netErr : FetchOutcome
  | resp (status : Nat) (body : Option Release) : FetchOutcome
deriving DecidableEq

/-- Result of one `CheckForUpdate` run: the returned string, the cache
file afterwards, and whether the cache was read / the network hit. -/
structure CheckTrace where
  result : String
  cacheFile : Option VersionCache
  cacheConsulted : Bool
  networkCalled : Bool
deriving DecidableEq

/-- The fetch path of `CheckForUpdate` (cache stale or absent): any
failure returns `""`; a 200 with a decodable body saves a fresh cache
entry and returns the tag only when it differs from the current version
with or without a `v` prefix. -/
def checkFetch (currentVersion : String) (cacheFile : Option VersionCache)
    (now : Int) (net : FetchOutcome) : CheckTrace :=
  match net with
  | .netErr => ⟨"", cacheFile, true, true⟩
  | .resp status body =>
    if status ≠ 200 then ⟨"", cacheFile, true, true⟩
    else
      match body with
      | none => ⟨"", cacheFile, true, true⟩
      | some release =>
        if release.tagName ≠ currentVersion ∧ release.tagName ≠ "v" ++ currentVersion then
          ⟨release.tagName, some ⟨now, release.tagName, release.htmlURL⟩, true, true⟩
        else ⟨"", some ⟨now, release.tagName, release.htmlURL⟩, true, true⟩

/-- Function `CheckForUpdate` from internal/update/update.go.  `cacheFile` is the
parsed `.version-check` file (`none` when absent or unparsable). -/
def checkForUpdate (currentVersion : String) (cacheFile : Option VersionCache)
    (now : Int) (net : FetchOutcome) : CheckTrace :=
  if currentVersion = "dev" then ⟨"", cacheFile, false, false⟩
  else
    match cacheFile with
    | some c =>
      if now - c.lastCheck < checkInterval then
        if c.latestVersion ≠ "" ∧ c.latestVersion ≠ currentVersion then
          ⟨c.latestVersion, cacheFile, true, false⟩
        else ⟨"", cacheFile, true, false⟩
      else checkFetch currentVersion cacheFile now net
    | none => checkFetch currentVersion cacheFile now net

/-! ## Self-update — `SelfUpdate` (internal/update/update.go)

Steps 1-6 of `SelfUpdate` (release fetch, version comparison, asset
selection, download, archive extraction) do not touch the executable's
directory; they are summarized by a `PreOutcome`.  The atomic
replacement protocol (write temp, rename exec→backup, rename temp→exec,
rollback on failure, remove backup) is embedded step by step over a
three-path filesystem, with a failure flag per fallible operation.
`os.Remove` errors are discarded by the source, so removals are
modelled as effective. -/

/-- Outcome of `SelfUpdate`'s steps before the replacement protocol. -/
inductive PreOutcome where
  | fetchErr : PreOutcome
  | alreadyLatest : PreOutcome
  | noAsset : PreOutcome
  | downloadErr : PreOutcome
  | zipAsset : PreOutcome
  | unknownArchive : PreOutcome
  | extractErr : PreOutcome
  | extracted (newBinary : String) : PreOutcome
deriving DecidableEq

/-- The error classes `SelfUpdate` can return. -/
inductive UpdateErr where
  | fetch | alreadyLatest | noAsset | download | zipUnsupported
  | unknownFormat | extract | writeTmp | backup | replace
deriving DecidableEq

/-- Result type of `SelfUpdate`. -/
inductive UpdResult where
  | ok : UpdResult
  | err (e : UpdateErr) : UpdResult
deriving DecidableEq

/-- The three paths `SelfUpdate` touches: the resolved executable path,
the sibling temp path (`execPath + ".new"`) and the sibling backup path
(`execPath + ".old"`); `none` means no file at that path. -/
structure FS where
  execF : Option String
  tmpF : Option String
  backupF : Option String
deriving DecidableEq

/-- Which fallible filesystem operations of the replacement protocol
fail (`true` = the operation returns an error and changes nothing). -/
structure RenameFails where
  writeTmp : Bool
  renameExecToBackup : Bool
  renameTmpToExec : Bool
  renameBackupToExec : Bool
deriving DecidableEq

/-- The atomic replacement protocol of `SelfUpdate`
(internal/update/update.go, from `os.WriteFile(tmpPath, ...)` to the
final `os.Remove(backupPath)`), step by step. -/
def selfUpdateReplace (newBin : String) (f : RenameFails) (fs : FS) : UpdResult × FS :=
  if f.writeTmp then (.err .writeTmp, fs)
  else
    let fs1 : FS := { fs with tmpF := some newBin }
    let fs2 : FS := { fs1 with backupF := none }
    if f.renameExecToBackup then (.err .backup, { fs2 with tmpF := none })
    else
      let fs3 : FS := { fs2 with execF := none, backupF := fs2.execF }
      if f.renameTmpToExec then
        if f.renameBackupToExec then (.err .replace, fs3)
        else (.err .replace, { fs3 with execF := fs3.backupF, backupF := none })
      else
        let fs4 : FS := { fs3 with execF := fs3.tmpF, tmpF := none }
        (.ok, { fs4 with backupF := none })

/-- Function `SelfUpdate`: the pre-replacement steps touch no file; then the
replacement protocol runs on the extracted binary. -/
def selfUpdate (pre : PreOutcome) (f : RenameFails) (fs : FS) : UpdResult × FS :=
  match pre with
  | .fetchErr => (.err .fetch, fs)
  | .alreadyLatest => (.err .alreadyLatest, fs)
  | .noAsset => (.err .noAsset, fs)
  | .downloadErr => (.err .download, fs)
  | .zipAsset => (.err .zipUnsupported, fs)
  | .unknownArchive => (.err .unknownFormat, fs)
  | .extractErr => (.err .extract, fs)
  | .extracted newBin => selfUpdateReplace newBin f fs

/-- A filesystem with only the original executable present. -/
def fsOrig : FS := ⟨some "original-binary", none, none⟩

/-- Final rename fails and the rollback rename also fails. -/
def doubleRenameFail : RenameFails := ⟨false, false, true, true⟩

/-- Only the final rename fails; the rollback succeeds. -/
def renameTmpFailOnly : RenameFails := ⟨false, false, true, false⟩

/-! ## PKCE generator — `GeneratePKCE` (internal/auth)

`GeneratePKCE` draws 32 random bytes, base64url-encodes them (Go's
`base64.RawURLEncoding`, unpadded URL-safe alphabet) into the verifier,
and encodes the SHA-256 digest of the verifier's bytes into the
challenge.  The random bytes are a parameter; base64url and SHA-256 are
embedded in full. -/

/-- The 64-character URL-safe base64 alphabet, Go's `encodeURL` constant
`"ABCDEFGHIJKLMNOPQRSTUVWXYZabcdefghijklmnopqrstuvwxyz0123456789-_"`. -/
def b64urlAlphabet : List Char :=
  "ABCDEFGHIJKLMNOPQRSTUVWXYZabcdefghijklmnopqrstuvwxyz0123456789-_".toList

/-- Character for a 6-bit group. -/
def b64Char (i : Nat) : Char := b64urlAlphabet.getD i 'A'

/-- Go `base64.RawURLEncoding.EncodeToString`: each 3-byte group becomes 4
characters; a 1-byte tail becomes 2, a 2-byte tail 3; no padding. -/
def b64urlChars : List Nat → List Char
  | [] => []
  | [b1] => [b64Char (b1 / 4), b64Char (b1 % 4 * 16)]
  | [b1, b2] =>
    [b64Char (b1 / 4), b64Char (b1 % 4 * 16 + b2 / 16), b64Char (b2 % 16 * 4)]
  | b1 :: b2 :: b3 :: rest =>
    b64Char (b1 / 4) :: b64Char (b1 % 4 * 16 + b2 / 16)
      :: b64Char (b2 % 16 * 4 + b3 / 64) :: b64Char (b3 % 64)
      :: b64urlChars rest

/-- Go `base64.RawURLEncoding.EncodeToString` as a `String`. -/
def b64url (bytes : List Nat) : String := ⟨b64urlChars bytes⟩

/-- Truncate to a 32-bit word. -/
def w32 (n : Nat) : Nat := n % 4294967296

/-- Rotate a 32-bit word right by `n`. -/
def rotr32 (n x : Nat) : Nat := x / 2 ^ n + x % 2 ^ n * 2 ^ (32 - n)

/-- Shift a 32-bit word right by `n` (logical). -/
def shr32 (n x : Nat) : Nat := x / 2 ^ n

/-- Bitwise complement of a 32-bit word (for `x < 2^32`). -/
def not32 (x : Nat) : Nat := 4294967295 - x

/-- SHA-256 Σ0. -/
def bsig0 (x : Nat) : Nat := rotr32 2 x ^^^ rotr32 13 x ^^^ rotr32 22 x

/-- SHA-256 Σ1. -/
def bsig1 (x : Nat) : Nat := rotr32 6 x ^^^ rotr32 11 x ^^^ rotr32 25 x

/-- SHA-256 σ0. -/
def ssig0 (x : Nat) : Nat := rotr32 7 x ^^^ rotr32 18 x ^^^ shr32 3 x

/-- SHA-256 σ1. -/
def ssig1 (x : Nat) : Nat := rotr32 17 x ^^^ rotr32 19 x ^^^ shr32 10 x

/-- The 64 SHA-256 round constants. -/
def sha256K : List Nat :=
  [1116352408, 1899447441, 3049323471, 3921009573,
   961987163, 1508970993, 2453635748, 2870763221,
   3624381080, 310598401, 607225278, 1426881987,
   1925078388, 2162078206, 2614888103, 3248222580,
   3835390401, 4022224774, 264347078, 604807628,
   770255983, 1249150122, 1555081692, 1996064986,
   2554220882, 2821834349, 2952996808, 3210313671,
   3336571891, 3584528711, 113926993, 338241895,
   666307205, 773529912, 1294757372, 1396182291,
   1695183700, 1986661051, 2177026350, 2456956037,
   2730485921, 2820302411, 3259730800, 3345764771,
   3516065817, 3600352804, 4094571909, 275423344,
   430227734, 506948616, 659060556, 883997877,
   958139571, 1322822218, 1537002063, 1747873779,
   1955562222, 2024104815, 2227730452, 2361852424,
   2428436474, 2756734187, 3204031479, 3329325298]

/-- SHA-256 working state: eight 32-bit words. -/
structure Sha256State where
  h0 : Nat
  h1 : Nat
  h2 : Nat
  h3 : Nat
  h4 : Nat
  h5 : Nat
  h6 : Nat
  h7 : Nat
deriving DecidableEq

/-- SHA-256 initial hash value. -/
def sha256Init : Sha256State :=
  ⟨1779033703, 3144134277, 1013904242, 2773480762,
   1359893119, 2600822924, 528734635, 1541459225⟩

/-- The `k` low bytes of `n`, big-endian. -/
def beBytes (k n : Nat) : List Nat :=
  match k with
  | 0 => []
  | k + 1 => beBytes k (n / 256) ++ [n % 256]

/-- SHA-256 padding: append `0x80`, zeros to 56 mod 64, then the 64-bit
big-endian bit length. -/
def padMessage (msg : List Nat) : List Nat :=
  msg ++ 128 :: List.replicate ((119 - msg.length % 64) % 64) 0
      ++ beBytes 8 (msg.length * 8)

/-- Big-endian 32-bit words of a byte list (groups of 4). -/
def wordsOfBytes : List Nat → List Nat
  | b1 :: b2 :: b3 :: b4 :: rest =>
    (((b1 * 256 + b2) * 256 + b3) * 256 + b4) :: wordsOfBytes rest
  | _ => []

/-- Extend the message schedule by `fuel` more words. -/
def scheduleExt (w : List Nat) : Nat → List Nat
  | 0 => w
  | fuel + 1 =>
    let i := w.length
    scheduleExt
      (w ++ [w32 (ssig1 (w.getD (i - 2) 0) + w.getD (i - 7) 0
        + ssig0 (w.getD (i - 15) 0) + w.getD (i - 16) 0)]) fuel

/-- The 64-word message schedule of one block. -/
def schedule64 (w16 : List Nat) : List Nat := scheduleExt w16 48

/-- One SHA-256 compression round (`kw` = round constant, schedule word). -/
def sha256Round (st : Sha256State) (kw : Nat × Nat) : Sha256State :=
  let ch := st.h4 &&& st.h5 ^^^ (not32 st.h4 &&& st.h6)
  let maj := st.h0 &&& st.h1 ^^^ (st.h0 &&& st.h2) ^^^ (st.h1 &&& st.h2)
  let t1 := w32 (st.h7 + bsig1 st.h4 + ch + kw.1 + kw.2)
  let t2 := w32 (bsig0 st.h0 + maj)
  ⟨w32 (t1 + t2), st.h0, st.h1, st.h2, w32 (st.h3 + t1), st.h4, st.h5, st.h6⟩

/-- Compress one 64-byte block into the running state. -/
def sha256Block (st : Sha256State) (block : List Nat) : Sha256State :=
  let r := (sha256K.zip (schedule64 (wordsOfBytes block))).foldl sha256Round st
  ⟨w32 (st.h0 + r.h0), w32 (st.h1 + r.h1), w32 (st.h2 + r.h2),
   w32 (st.h3 + r.h3), w32 (st.h4 + r.h4), w32 (st.h5 + r.h5),
   w32 (st.h6 + r.h6), w32 (st.h7 + r.h7)⟩

/-- Split into 64-byte blocks. -/
def chunks64 (l : List Nat) : List (List Nat) :=
  if h : l = [] then []
  else l.take 64 :: chunks64 (l.drop 64)
termination_by l.length
decreasing_by
  have hp : 0 < l.length := List.length_pos.mpr h
  simp [List.length_drop]
  omega

/-- The digest bytes of a final state. -/
def stateBytes (st : Sha256State) : List Nat :=
  beBytes 4 st.h0 ++ beBytes 4 st.h1 ++ beBytes 4 st.h2 ++ beBytes 4 st.h3
    ++ beBytes 4 st.h4 ++ beBytes 4 st.h5 ++ beBytes 4 st.h6 ++ beBytes 4 st.h7

/-- SHA-256 of a byte list. -/
def sha256 (msg : List Nat) : List Nat :=
  stateBytes ((chunks64 (padMessage msg)).foldl sha256Block sha256Init)

/-- Function `GeneratePKCE` (internal/auth), as a function of the 32 bytes read
from `crypto/rand`: the verifier is their unpadded base64url encoding,
the challenge the unpadded base64url encoding of the SHA-256 digest of
the verifier's UTF-8 bytes (the verifier is ASCII, so its UTF-8 bytes
are its characters' code points). -/
def generatePKCE (randomBytes : List Nat) : String × String :=
  let verifier := b64url randomBytes
  let challenge := b64url (sha256 (verifier.toList.map Char.toNat))
  (verifier, challenge)

/-- The RFC 7636 unreserved character set `A-Z a-z 0-9 - . _ ~`. -/
def rfc7636Char (c : Char) : Bool :=
  ('A' ≤ c && c ≤ 'Z') || ('a' ≤ c && c ≤ 'z') || ('0' ≤ c && c ≤ '9')
    || c == '-' || c == '.' || c == '_' || c == '~'

/-! ## Theorems -/

theorem compatWarning_ne_empty (a b : String) : compatWarning a b ≠ "" := by
  intro h
  have hlen : (compatWarning a b).data.length = 0 := by rw [h]; rfl
  simp only [compatWarning, String.data_append, List.length_append] at hlen
  have e1 : "Warning: stompy-cli ".data.length = 20 := by decide
  rw [e1] at hlen
  omega

/-- C4 (amended): `IsExpired(expiry)` is true iff `now` is strictly
after `expiry - 5 minutes`; an expiry 2 minutes in the future is
reported expired, an expiry 10 minutes in the future is not. -/
theorem isExpired_spec (now expiry : Int) :
    (isExpired now expiry = true ↔ expiry - tokenExpiryBuffer < now)
    ∧ isExpired now (now + 2 * 60) = true
    ∧ isExpired now (now + 10 * 60) = false := by
  refine ⟨?_, ?_, ?_⟩ <;> simp [isExpired, tokenExpiryBuffer] <;> omega

/-- C4 counterexample: at `now = expiry - 5 minutes` exactly, the code
reports the token as NOT expired, while the claim's `now >= expiry - 5min`
would call it expired; so "true if and only if now >= expiry - 5 minutes"
fails at now = 0, expiry = 300. -/
theorem isExpired_claim_counterexample :
    ¬ (isExpired 0 300 = true ↔ (0 : Int) ≥ 300 - tokenExpiryBuffer) := by
  decide

/-- C7: `CheckCompat("0.1.4", "0.2.0")` is a non-empty warning containing
both version strings and the upgrade instruction; the three compatible
pairs return the empty string; and in general a warning is returned
exactly when both arguments parse as semantic versions and the client
version compares strictly below the minimum. -/
theorem checkCompat_spec :
    checkCompat "0.1.4" "0.2.0" ≠ ""
    ∧ hasSubstr "0.1.4".toList (checkCompat "0.1.4" "0.2.0").toList = true
    ∧ hasSubstr "0.2.0".toList (checkCompat "0.1.4" "0.2.0").toList = true
    ∧ hasSubstr "Run \u0027stompy update\u0027 to upgrade.".toList
        (checkCompat "0.1.4" "0.2.0").toList = true
    ∧ checkCompat "0.2.0" "0.2.0" = ""
    ∧ checkCompat "dev" "0.2.0" = ""
    ∧ checkCompat "" "x" = ""
    ∧ ∀ cli minReq : String,
        checkCompat cli minReq ≠ "" ↔
          ∃ c m, parseSemver cli = some c ∧ parseSemver minReq = some m ∧
            compareSemver c m < 0 := by
  refine ⟨by decide, by decide, by decide, by decide, by decide, by decide, by decide, ?_⟩
  intro cli minReq
  by_cases h0 : cli = "" ∨ cli = "dev" ∨ minReq = ""
  · rw [checkCompat, if_pos h0]
    constructor
    · intro hne; exact absurd rfl hne
    · rintro ⟨c, m, hc, hm, _⟩
      rcases h0 with h | h | h
      · rw [h] at hc
        have hn : parseSemver "" = none := by decide
        rw [hn] at hc; exact Option.noConfusion hc
      · rw [h] at hc
        have hn : parseSemver "dev" = none := by decide
        rw [hn] at hc; exact Option.noConfusion hc
      · rw [h] at hm
        have hn : parseSemver "" = none := by decide
        rw [hn] at hm; exact Option.noConfusion hm
  · rw [checkCompat, if_neg h0]
    rcases hc : parseSemver cli with _ | c
    · simp [hc]
    · rcases hm : parseSemver minReq with _ | m
      · simp [hc, hm]
      · by_cases hlt : compareSemver c m < 0
        · simp [hc, hm, hlt, compatWarning_ne_empty]
        · simp [hc, hm, hlt]
theorem doLoop_attempts_le (oracle : Nat → HTTPOutcome) :
    ∀ fuel a nc e0, (doLoop oracle fuel a nc e0).attempts ≤ fuel := by
  intro fuel
  induction fuel with
  | zero => intro a nc e0; simp [doLoop]
  | succ n ih =>
    intro a nc e0
    rw [doLoop]
    cases ho : oracle a with
    | transportError =>
      simp only [doStep]
      exact Nat.succ_le_succ (ih (a + 1) nc .transport)
    | response s =>
      simp only [doStep]
      cases hr : isRetryableStatus s with
      | true =>
        simp only [hr, if_true]
        exact Nat.succ_le_succ (ih (a + 1) false (.api s))
      | false =>
        by_cases hs : s < 200 ∨ 300 ≤ s
        · simp [hs]
        · simp [hs]

theorem doLoop_attempts_pos (oracle : Nat → HTTPOutcome) (fuel a : Nat)
    (nc : Bool) (e0 : DoError) :
    1 ≤ (doLoop oracle (fuel + 1) a nc e0).attempts := by
  rw [doLoop]
  cases ho : oracle a with
  | transportError =>
    simp only [doStep]
    exact Nat.succ_le_succ (Nat.zero_le _)
  | response s =>
    simp only [doStep]
    cases hr : isRetryableStatus s with
    | true =>
      simp only [hr, if_true]
      exact Nat.succ_le_succ (Nat.zero_le _)
    | false =>
      by_cases hs : s < 200 ∨ 300 ≤ s
      · simp [hs]
      · simp [hs]

theorem doLoop_only_retryable (oracle : Nat → HTTPOutcome) :
    ∀ fuel a nc e0 k, k + 1 < (doLoop oracle fuel a nc e0).attempts →
      retryableOutcome (oracle (a + k)) = true := by
  intro fuel
  induction fuel with
  | zero => intro a nc e0 k hk; simp [doLoop] at hk
  | succ n ih =>
    intro a nc e0 k hk
    rw [doLoop] at hk
    cases ho : oracle a with
    | transportError =>
      rw [ho] at hk
      simp only [doStep] at hk
      cases k with
      | zero => simp [retryableOutcome, ho]
      | succ k' =>
        have hshift : a + (k' + 1) = (a + 1) + k' := by omega
        rw [hshift]
        exact ih (a + 1) nc .transport k' (by omega)
    | response s =>
      rw [ho] at hk
      simp only [doStep] at hk
      cases hr : isRetryableStatus s with
      | true =>
        rw [hr] at hk
        simp only [if_true] at hk
        cases k with
        | zero => simp [retryableOutcome, ho, hr]
        | succ k' =>
          have hshift : a + (k' + 1) = (a + 1) + k' := by omega
          rw [hshift]
          exact ih (a + 1) false (.api s) k' (by omega)
      | false =>
        rw [hr] at hk
        by_cases hs : s < 200 ∨ 300 ≤ s
        · simp [hs] at hk
        · simp [hs] at hk

theorem doLoop_attempts_full (oracle : Nat → HTTPOutcome) :
    ∀ fuel a nc e0, (∀ k, k < fuel → retryableOutcome (oracle (a + k)) = true) →
      (doLoop oracle fuel a nc e0).attempts = fuel := by
  intro fuel
  induction fuel with
  | zero => intro a nc e0 _; simp [doLoop]
  | succ n ih =>
    intro a nc e0 h
    have h0 : retryableOutcome (oracle a) = true := by
      have := h 0 (by omega); simpa using this
    rw [doLoop]
    cases ho : oracle a with
    | transportError =>
      have hrec : (doLoop oracle n (a + 1) nc DoError.transport).attempts = n := by
        apply ih
        intro k hk
        have := h (k + 1) (by omega)
        have hshift : a + (k + 1) = (a + 1) + k := by omega
        rwa [hshift] at this
      simp [doStep, hrec]
    | response s =>
      rw [ho] at h0
      have hr : isRetryableStatus s = true := by simpa [retryableOutcome] using h0
      have hrec : (doLoop oracle n (a + 1) false (DoError.api s)).attempts = n := by
        apply ih
        intro k hk
        have := h (k + 1) (by omega)
        have hshift : a + (k + 1) = (a + 1) + k := by omega
        rwa [hshift] at this
      simp [doStep, hr, hrec]

theorem doLoop_exhaust (oracle : Nat → HTTPOutcome) :
    ∀ fuel a nc e0, 1 ≤ fuel →
      (∀ k, k < fuel → retryableOutcome (oracle (a + k)) = true) →
      (doLoop oracle fuel a nc e0).result
        = .err (errOfOutcome (oracle (a + (fuel - 1)))) := by
  intro fuel
  induction fuel with
  | zero => intro a nc e0 h1; omega
  | succ n ih =>
    intro a nc e0 _ h
    have h0 : retryableOutcome (oracle a) = true := by
      have := h 0 (by omega); simpa using this
    rw [doLoop]
    cases ho : oracle a with
    | transportError =>
      cases n with
      | zero => simp [doStep, doLoop, errOfOutcome, ho]
      | succ m =>
        have hrec := ih (a + 1) nc DoError.transport (by omega) (by
          intro k hk
          have := h (k + 1) (by omega)
          have hshift : a + (k + 1) = (a + 1) + k := by omega
          rwa [hshift] at this)
        have hshift2 : (a + 1) + (m + 1 - 1) = a + (m + 1 + 1 - 1) := by omega
        rw [hshift2] at hrec
        simp [doStep, hrec]
    | response s =>
      rw [ho] at h0
      have hr : isRetryableStatus s = true := by simpa [retryableOutcome] using h0
      cases n with
      | zero => simp [doStep, doLoop, errOfOutcome, ho, hr]
      | succ m =>
        have hrec := ih (a + 1) false (DoError.api s) (by omega) (by
          intro k hk
          have := h (k + 1) (by omega)
          have hshift : a + (k + 1) = (a + 1) + k := by omega
          rwa [hshift] at this)
        have hshift2 : (a + 1) + (m + 1 - 1) = a + (m + 1 + 1 - 1) := by omega
        rw [hshift2] at hrec
        simp [doStep, hr, hrec]

theorem doLoop_delays_from (oracle : Nat → HTTPOutcome) :
    ∀ fuel a nc e0, 1 ≤ a →
      (doLoop oracle fuel a nc e0).delays
        = delaysFrom a (doLoop oracle fuel a nc e0).attempts := by
  intro fuel
  induction fuel with
  | zero => intro a nc e0 _; simp [doLoop, delaysFrom]
  | succ n ih =>
    intro a nc e0 ha
    have hne : ¬ a = 0 := by omega
    rw [doLoop]
    cases ho : oracle a with
    | transportError =>
      have hrec := ih (a + 1) nc .transport (by omega)
      simp [doStep, hne, hrec, delaysFrom]
    | response s =>
      cases hr : isRetryableStatus s with
      | true =>
        have hrec := ih (a + 1) false (.api s) (by omega)
        simp [doStep, hr, hne, hrec, delaysFrom]
      | false =>
        by_cases hs : s < 200 ∨ 300 ≤ s
        · simp [doStep, hr, hs, hne, delaysFrom]
        · simp [doStep, hr, hs, hne, delaysFrom]

theorem doLoop_delays_zero (oracle : Nat → HTTPOutcome) (fuel : Nat)
    (nc : Bool) (e0 : DoError) :
    (doLoop oracle (fuel + 1) 0 nc e0).delays
      = delaysFrom 1 ((doLoop oracle (fuel + 1) 0 nc e0).attempts - 1) := by
  rw [doLoop]
  cases ho : oracle 0 with
  | transportError =>
    have hrec := doLoop_delays_from oracle fuel 1 nc .transport (by omega)
    simp [doStep, hrec]
  | response s =>
    cases hr : isRetryableStatus s with
    | true =>
      have hrec := doLoop_delays_from oracle fuel 1 false (.api s) (by omega)
      simp [doStep, hr, hrec]
    | false =>
      by_cases hs : s < 200 ∨ 300 ≤ s
      · simp [doStep, hr, hs, delaysFrom]
      · simp [doStep, hr, hs, delaysFrom]
theorem delaysFrom_one :
    ∀ n, delaysFrom 1 n = (List.range n).map (fun k => retryBaseDelay * 2 ^ k) := by
  have general : ∀ n a, 1 ≤ a →
      delaysFrom a n = (List.range n).map (fun k => retryBaseDelay * 2 ^ (a - 1 + k)) := by
    intro n
    induction n with
    | zero => intro a _; simp [delaysFrom]
    | succ m ih =>
      intro a ha
      rw [delaysFrom, List.range_succ_eq_map, List.map_cons, List.map_map,
        ih (a + 1) (by omega)]
      refine congrArg₂ List.cons ?_ ?_
      · simp
      · apply List.map_congr_left
        intro x _
        have hx : a + 1 - 1 + x = a - 1 + (x + 1) := by omega
        simp [Function.comp, hx]
        omega
  intro n
  have := general n 1 (by omega)
  simpa using this

theorem doLoop_header_false (oracle : Nat → HTTPOutcome) :
    ∀ fuel a e0,
      (doLoop oracle fuel a false e0).cacheHeader
        = List.replicate (doLoop oracle fuel a false e0).attempts false
      ∧ (doLoop oracle fuel a false e0).noCacheAfter = false := by
  intro fuel
  induction fuel with
  | zero => intro a e0; simp [doLoop]
  | succ n ih =>
    intro a e0
    rw [doLoop]
    cases ho : oracle a with
    | transportError =>
      have hrec := ih (a + 1) .transport
      simp [doStep, hrec.1, hrec.2, List.replicate_succ]
    | response s =>
      cases hr : isRetryableStatus s with
      | true =>
        have hrec := ih (a + 1) (.api s)
        simp [doStep, hr, hrec.1, hrec.2, List.replicate_succ]
      | false =>
        by_cases hs : s < 200 ∨ 300 ≤ s
        · simp [doStep, hr, hs, List.replicate_succ]
        · simp [doStep, hr, hs, List.replicate_succ]

theorem doLoop_header_true (oracle : Nat → HTTPOutcome) :
    ∀ fuel a e0,
      (doLoop oracle fuel a true e0).cacheHeader
        = headerSeq oracle a (doLoop oracle fuel a true e0).attempts
      ∧ (doLoop oracle fuel a true e0).noCacheAfter
        = allTransportFrom oracle a (doLoop oracle fuel a true e0).attempts := by
  intro fuel
  induction fuel with
  | zero => intro a e0; simp [doLoop, headerSeq, allTransportFrom]
  | succ n ih =>
    intro a e0
    rw [doLoop]
    cases ho : oracle a with
    | transportError =>
      have hrec := ih (a + 1) .transport
      constructor
      · simp [doStep, hrec.1, headerSeq, ho]
      · simp [doStep, hrec.2, allTransportFrom, ho, isTransport]
    | response s =>
      cases hr : isRetryableStatus s with
      | true =>
        have hfalse := doLoop_header_false oracle n (a + 1) (.api s)
        constructor
        · simp [doStep, hr, hfalse.1, headerSeq, ho]
        · simp [doStep, hr, hfalse.2, allTransportFrom, ho, isTransport]
      | false =>
        by_cases hs : s < 200 ∨ 300 ≤ s
        · constructor <;>
            simp [doStep, hr, hs, headerSeq, allTransportFrom, ho, isTransport]
        · constructor <;>
            simp [doStep, hr, hs, headerSeq, allTransportFrom, ho, isTransport]

/-- C2: `Client.Do` retries only idempotent methods (exactly GET, HEAD,
PUT, DELETE, OPTIONS) and only on a transport-level error or a
502/503/504 status; non-idempotent methods are attempted exactly once;
the sleep before retry attempt `n` is `retryBaseDelay * 2^(n-1)` with a
1-second base; at most `maxRetries = 2` retries (3 attempts) happen,
and exhausting the retries surfaces the last observed error.  In
particular: a GET answered 502 then 200 succeeds with exactly 2
attempts; a POST answered 502 fails after exactly 1 attempt; a GET
answered 404 fails after exactly 1 attempt; a GET always answered 503
fails after exactly 3 attempts. -/
theorem do_retry_spec (method : String) (nc : Bool) (oracle : Nat → HTTPOutcome) :
    (isIdempotent method = true ↔
      method = "GET" ∨ method = "HEAD" ∨ method = "PUT"
        ∨ method = "DELETE" ∨ method = "OPTIONS")
    ∧ (isIdempotent method = false → (runDo method nc oracle).attempts = 1)
    ∧ (runDo method nc oracle).attempts ≤ 1 + maxRetries
    ∧ (∀ k, k + 1 < (runDo method nc oracle).attempts →
        retryableOutcome (oracle k) = true)
    ∧ (runDo method nc oracle).delays
        = (List.range ((runDo method nc oracle).attempts - 1)).map
            (fun n => retryBaseDelay * 2 ^ n)
    ∧ ((∀ k, k ≤ (if isIdempotent method then maxRetries else 0) →
          retryableOutcome (oracle k) = true) →
        (runDo method nc oracle).result
            = .err (errOfOutcome
                (oracle (if isIdempotent method then maxRetries else 0)))
          ∧ (runDo method nc oracle).attempts
              = 1 + (if isIdempotent method then maxRetries else 0))
    ∧ (runDo "GET" false oracle502then200).result = .ok 200
    ∧ (runDo "GET" false oracle502then200).attempts = 2
    ∧ (runDo "POST" false oracleAlways502).result = .err (.api 502)
    ∧ (runDo "POST" false oracleAlways502).attempts = 1
    ∧ (runDo "GET" false oracleAlways404).result = .err (.api 404)
    ∧ (runDo "GET" false oracleAlways404).attempts = 1
    ∧ (runDo "GET" false oracleAlways503).result = .err (.api 503)
    ∧ (runDo "GET" false oracleAlways503).attempts = 3 := by
  refine ⟨?_, ?_, ?_, ?_, ?_, ?_, by decide, by decide, by decide, by decide,
    by decide, by decide, by decide, by decide⟩
  · simp [isIdempotent, or_assoc]
  · intro h
    have h1 := doLoop_attempts_le oracle 1 0 nc DoError.transport
    have h2 : 1 ≤ (doLoop oracle 1 0 nc DoError.transport).attempts :=
      doLoop_attempts_pos oracle 0 0 nc DoError.transport
    simp [runDo, h]
    omega
  · have h1 := doLoop_attempts_le oracle
      ((if isIdempotent method then maxRetries else 0) + 1) 0 nc DoError.transport
    have h2 : (if isIdempotent method then maxRetries else 0) ≤ maxRetries := by
      by_cases h : isIdempotent method <;> simp [h]
    simp only [runDo]
    omega
  · intro k hk
    have h := doLoop_only_retryable oracle
      ((if isIdempotent method then maxRetries else 0) + 1) 0 nc DoError.transport k
    simp only [runDo] at hk
    simpa using h hk
  · simp only [runDo]
    rw [doLoop_delays_zero, delaysFrom_one]
  · intro hall
    have hyp : ∀ k, k < (if isIdempotent method then maxRetries else 0) + 1 →
        retryableOutcome (oracle (0 + k)) = true := by
      intro k hk
      simpa using hall k (by omega)
    have hres := doLoop_exhaust oracle
      ((if isIdempotent method then maxRetries else 0) + 1) 0 nc DoError.transport
      (by omega) hyp
    have hatt := doLoop_attempts_full oracle
      ((if isIdempotent method then maxRetries else 0) + 1) 0 nc DoError.transport hyp
    constructor
    · simp only [runDo]
      simpa using hres
    · simp only [runDo]
      omega

/-- Witness for `do_retry_spec`: its hypotheses hold and its conclusions
evaluate at the concrete scenarios. -/
theorem do_retry_spec_witness :
    (runDo "POST" false oracleAlways502).attempts = 1
    ∧ retryableOutcome (oracleAlways503 0) = true
    ∧ (runDo "GET" false oracleAlways503).result = .err (.api 503) := by
  refine ⟨(do_retry_spec "POST" false oracleAlways502).2.1 (by decide), ?_, ?_⟩
  · exact (do_retry_spec "GET" false oracleAlways503).2.2.2.1 0 (by decide)
  · exact ((do_retry_spec "GET" false oracleAlways503).2.2.2.2.2.1
      (fun k _ => rfl)).1

/-- C8 (amended): when the one-shot `NoCache` directive is set,
`Client.Do` attaches `Cache-Control: no-cache` to the first attempt's
request; the directive is cleared after the first attempt that receives
an HTTP response has its body read — not when the first attempt's
headers are built and not after the whole call completes — so retries
that follow a 502/503/504 response do not repeat the header, while
retries that follow a transport-level error do repeat it; the field
stays set after the call only if every attempt failed at the transport
level, and a call with the directive unset never sends the header. -/
theorem noCache_spec (method : String) (oracle : Nat → HTTPOutcome) :
    (runDo method true oracle).cacheHeader
        = headerSeq oracle 0 (runDo method true oracle).attempts
    ∧ (runDo method true oracle).cacheHeader.getD 0 false = true
    ∧ (runDo method true oracle).noCacheAfter
        = allTransportFrom oracle 0 (runDo method true oracle).attempts
    ∧ (∀ st, oracle 0 = .response st →
        (runDo method true oracle).cacheHeader
          = true :: List.replicate ((runDo method true oracle).attempts - 1) false)
    ∧ (runDo method false oracle).cacheHeader
        = List.replicate (runDo method false oracle).attempts false
    ∧ (runDo method false oracle).noCacheAfter = false := by
  have hT := doLoop_header_true oracle
    ((if isIdempotent method then maxRetries else 0) + 1) 0 DoError.transport
  have hF := doLoop_header_false oracle
    ((if isIdempotent method then maxRetries else 0) + 1) 0 DoError.transport
  have hpos := doLoop_attempts_pos oracle
    (if isIdempotent method then maxRetries else 0) 0 true DoError.transport
  refine ⟨?_, ?_, ?_, ?_, ?_, ?_⟩
  · simp only [runDo]
    exact hT.1
  · simp only [runDo]
    obtain ⟨m, hm⟩ : ∃ m,
        (doLoop oracle ((if isIdempotent method then maxRetries else 0) + 1) 0
          true DoError.transport).attempts = m + 1 :=
      ⟨(doLoop oracle ((if isIdempotent method then maxRetries else 0) + 1) 0
          true DoError.transport).attempts - 1, by omega⟩
    rw [hT.1, hm]
    simp [headerSeq]
  · simp only [runDo]
    exact hT.2
  · intro st h0
    simp only [runDo]
    obtain ⟨m, hm⟩ : ∃ m,
        (doLoop oracle ((if isIdempotent method then maxRetries else 0) + 1) 0
          true DoError.transport).attempts = m + 1 :=
      ⟨(doLoop oracle ((if isIdempotent method then maxRetries else 0) + 1) 0
          true DoError.transport).attempts - 1, by omega⟩
    rw [hT.1, hm]
    simp [headerSeq, h0]
  · simp only [runDo]
    exact hF.1
  · simp only [runDo]
    exact hF.2

/-- Witness for `noCache_spec`: the response-clears-the-directive part
at a concrete oracle. -/
theorem noCache_spec_witness :
    (runDo "GET" true oracleAlways503).cacheHeader
      = true :: List.replicate ((runDo "GET" true oracleAlways503).attempts - 1)
          false :=
  (noCache_spec "GET" oracleAlways503).2.2.2.1 503 rfl

/-- C8 counterexample: with the directive set, a GET whose first attempt
fails at the transport level repeats `Cache-Control: no-cache` on the
retry — so the claim that the directive is cleared when the first
attempt's headers are built (and that retries never repeat the header)
is false on this input. -/
theorem noCache_claim_counterexample :
    (runDo "GET" true oracleTransportThen200).attempts = 2
    ∧ (runDo "GET" true oracleTransportThen200).cacheHeader = [true, true]
    ∧ (runDo "GET" true oracleTransportThen200).result = .ok 200 := by
  decide

/-- C5: for every request the callback listener handles: a mismatched
`state` yields HTTP 400 and delivers nothing on the result channel; a
matching `state` with a code present yields HTTP 200 and delivers
exactly that code exactly once; a matching `state` with no code
(provider error) yields HTTP 400 and delivers nothing. -/
theorem callback_spec (expectedState : String) (q : CallbackQuery) :
    (q.state ≠ expectedState → handleCallback expectedState q = (400, []))
    ∧ (q.state = expectedState → q.code ≠ "" →
        handleCallback expectedState q = (200, [q.code]))
    ∧ (q.state = expectedState → q.code = "" →
        handleCallback expectedState q = (400, [])) := by
  refine ⟨?_, ?_, ?_⟩
  · intro h; simp [handleCallback, h]
  · intro h1 h2; simp [handleCallback, h1, h2]
  · intro h1 h2; simp [handleCallback, h1, h2]

/-- Witness for `callback_spec`: the happy path of the Go test
(`TestStartCallbackServer`). -/
theorem callback_spec_witness :
    handleCallback "fixed-test-state-abc123"
        ⟨"fixed-test-state-abc123", "test-auth-code", "", ""⟩
      = (200, ["test-auth-code"]) :=
  (callback_spec "fixed-test-state-abc123"
      ⟨"fixed-test-state-abc123", "test-auth-code", "", ""⟩).2.1 rfl (by decide)

/-- C3: `GetValidToken` fails with the not-authenticated error when no
access token is stored; returns the stored token unchanged with no
network call when it is not expired under the 5-minute buffer; fails
with the expired-no-refresh error when it is expired and no refresh
token is stored; otherwise performs the refresh exchange and, on
success, persists the new access token, refresh token and expiry
`now + expires_in` via Config and returns the new access token, while a
failed refresh is returned as an error with nothing persisted.  (The
config-file write is assumed to succeed: `saveOk = true`.) -/
theorem getValidToken_spec (cfg : ConfigState) (now : Int)
    (ro : Option TokenResponse) :
    (cfg.accessToken = "" →
      getValidToken cfg now ro true = ⟨.err .notAuthenticated, cfg, false⟩)
    ∧ (cfg.accessToken ≠ "" → isExpired now cfg.tokenExpiry = false →
        getValidToken cfg now ro true = ⟨.ok cfg.accessToken, cfg, false⟩)
    ∧ (cfg.accessToken ≠ "" → isExpired now cfg.tokenExpiry = true →
        cfg.refreshToken = "" →
        getValidToken cfg now ro true = ⟨.err .expiredNoRefresh, cfg, false⟩)
    ∧ (∀ tr, cfg.accessToken ≠ "" → isExpired now cfg.tokenExpiry = true →
        cfg.refreshToken ≠ "" → ro = some tr →
        getValidToken cfg now ro true
          = ⟨.ok tr.accessToken,
             saveTokens cfg tr.accessToken tr.refreshToken (now + tr.expiresIn)
               cfg.email "", true⟩)
    ∧ (cfg.accessToken ≠ "" → isExpired now cfg.tokenExpiry = true →
        cfg.refreshToken ≠ "" → ro = none →
        getValidToken cfg now ro true = ⟨.err .refreshFailed, cfg, true⟩) := by
  refine ⟨?_, ?_, ?_, ?_, ?_⟩
  · intro h; simp [getValidToken, h]
  · intro h1 h2; simp [getValidToken, h1, h2]
  · intro h1 h2 h3; simp [getValidToken, h1, h2, h3]
  · intro tr h1 h2 h3 h4; simp [getValidToken, h1, h2, h3, h4]
  · intro h1 h2 h3 h4; simp [getValidToken, h1, h2, h3, h4]

/-- Witness for `getValidToken_spec`: an expired token is refreshed, the
new values persisted, the new access token returned. -/
theorem getValidToken_spec_witness :
    getValidToken
        ⟨"stored-access", "stored-refresh", 1000, "user@example.com", "", ""⟩
        2000 (some ⟨"new-access", "new-refresh", 3600, "Bearer"⟩) true
      = ⟨.ok "new-access",
         ⟨"new-access", "new-refresh", 5600, "user@example.com", "", ""⟩, true⟩ := by
  have h := (getValidToken_spec
      ⟨"stored-access", "stored-refresh", 1000, "user@example.com", "", ""⟩ 2000
      (some ⟨"new-access", "new-refresh", 3600, "Bearer"⟩)).2.2.2.1
      ⟨"new-access", "new-refresh", 3600, "Bearer"⟩
      (by decide) (by decide) (by decide) rfl
  simpa [saveTokens] using h

/-- C10: `resolveAuthToken` resolves with precedence `--api-key` flag,
then `STOMPY_API_KEY` env var, then the stored OAuth token (silently
refreshed and persisted when expired under the 5-minute buffer), then
the static `api_key` config value; a failed refresh is not surfaced but
falls through to the static api_key; only when no source yields a token
does it return the not-authenticated error. -/
theorem resolveAuthToken_spec (flagKey envKey : String) (cfg : ConfigState)
    (now : Int) (ro : Option TokenResponse) :
    (flagKey ≠ "" →
      resolveAuthToken flagKey envKey cfg now ro = ⟨.ok flagKey, cfg, false⟩)
    ∧ (flagKey = "" → envKey ≠ "" →
        resolveAuthToken flagKey envKey cfg now ro = ⟨.ok envKey, cfg, false⟩)
    ∧ (flagKey = "" → envKey = "" → cfg.accessToken ≠ "" →
        isExpired now cfg.tokenExpiry = false →
        resolveAuthToken flagKey envKey cfg now ro = ⟨.ok cfg.accessToken, cfg, false⟩)
    ∧ (∀ tr, flagKey = "" → envKey = "" → cfg.accessToken ≠ "" →
        isExpired now cfg.tokenExpiry = true → cfg.refreshToken ≠ "" →
        ro = some tr →
        resolveAuthToken flagKey envKey cfg now ro
          = ⟨.ok tr.accessToken,
             saveTokens cfg tr.accessToken tr.refreshToken (now + tr.expiresIn)
               cfg.email "", true⟩)
    ∧ (flagKey = "" → envKey = "" → cfg.accessToken ≠ "" →
        isExpired now cfg.tokenExpiry = true → cfg.refreshToken ≠ "" →
        ro = none → cfg.apiKey ≠ "" →
        resolveAuthToken flagKey envKey cfg now ro = ⟨.ok cfg.apiKey, cfg, true⟩)
    ∧ (flagKey = "" → envKey = "" →
        (cfg.accessToken = ""
          ∨ (isExpired now cfg.tokenExpiry = true ∧ cfg.refreshToken = "")) →
        cfg.apiKey ≠ "" →
        resolveAuthToken flagKey envKey cfg now ro = ⟨.ok cfg.apiKey, cfg, false⟩)
    ∧ (flagKey = "" → envKey = "" →
        (cfg.accessToken = ""
          ∨ (isExpired now cfg.tokenExpiry = true
              ∧ (cfg.refreshToken = "" ∨ ro = none))) →
        cfg.apiKey = "" →
        (resolveAuthToken flagKey envKey cfg now ro).result = .err .notAuthenticated
          ∧ (resolveAuthToken flagKey envKey cfg now ro).cfg = cfg) := by
  refine ⟨?_, ?_, ?_, ?_, ?_, ?_, ?_⟩
  · intro h; simp [resolveAuthToken, h]
  · intro h1 h2; simp [resolveAuthToken, h1, h2]
  · intro h1 h2 h3 h4; simp [resolveAuthToken, h1, h2, h3, h4]
  · intro tr h1 h2 h3 h4 h5 h6; simp [resolveAuthToken, h1, h2, h3, h4, h5, h6]
  · intro h1 h2 h3 h4 h5 h6 h7
    simp [resolveAuthToken, h1, h2, h3, h4, h5, h6, h7]
  · intro h1 h2 h3 h4
    rcases h3 with h3 | ⟨h3a, h3b⟩
    · simp [resolveAuthToken, h1, h2, h3, h4]
    · simp [resolveAuthToken, h1, h2, h3a, h3b, h4]
  · intro h1 h2 h3 h4
    rcases h3 with h3 | ⟨h3a, h3b⟩
    · constructor <;> simp [resolveAuthToken, h1, h2, h3, h4]
    · rcases h3b with h3b | h3b
      · constructor <;> simp [resolveAuthToken, h1, h2, h3a, h3b, h4]
      · by_cases hat : cfg.accessToken = ""
        · constructor <;> simp [resolveAuthToken, h1, h2, hat, h4]
        · by_cases hrt : cfg.refreshToken = ""
          · constructor <;> simp [resolveAuthToken, h1, h2, h3a, hat, hrt, h4]
          · constructor <;> simp [resolveAuthToken, h1, h2, h3a, hat, hrt, h3b, h4]

/-- Witness for `resolveAuthToken_spec`: a failed refresh silently falls
through to the static api_key. -/
theorem resolveAuthToken_spec_witness :
    resolveAuthToken "" ""
        ⟨"stored-access", "stored-refresh", 1000, "user@example.com", "",
         "static-key"⟩ 2000 none
      = ⟨.ok "static-key",
         ⟨"stored-access", "stored-refresh", 1000, "user@example.com", "",
          "static-key"⟩, true⟩ :=
  (resolveAuthToken_spec "" ""
      ⟨"stored-access", "stored-refresh", 1000, "user@example.com", "",
       "static-key"⟩ 2000 none).2.2.2.2.1
    rfl rfl (by decide) (by decide) (by decide) rfl (by decide)

/-- C9: `CheckForUpdate` returns `""` for current version "dev" without
consulting cache or network; a cache entry fresher than 24 hours is
answered from cache with no network call, returning the cached latest
only when it differs from the current version; when the cache is stale
or absent, a network failure, non-2xx status or malformed body yields
`""` rather than an error; and a successful fetch persists a fresh
cache entry and returns the fetched tag only when it differs from the
current version, accounting for an optional `v` prefix. -/
theorem checkForUpdate_spec (cur : String) (cacheFile : Option VersionCache)
    (now : Int) (net : FetchOutcome) :
    (checkForUpdate "dev" cacheFile now net = ⟨"", cacheFile, false, false⟩)
    ∧ (∀ c, cur ≠ "dev" → cacheFile = some c → now - c.lastCheck < checkInterval →
        (checkForUpdate cur cacheFile now net).networkCalled = false
        ∧ (checkForUpdate cur cacheFile now net).cacheFile = cacheFile
        ∧ ((checkForUpdate cur cacheFile now net).result ≠ "" →
            (checkForUpdate cur cacheFile now net).result = c.latestVersion
              ∧ c.latestVersion ≠ cur)
        ∧ (c.latestVersion ≠ "" → c.latestVersion ≠ cur →
            (checkForUpdate cur cacheFile now net).result = c.latestVersion))
    ∧ (cur ≠ "dev" → (∀ c, cacheFile = some c → checkInterval ≤ now - c.lastCheck) →
        net = .netErr →
        checkForUpdate cur cacheFile now net = ⟨"", cacheFile, true, true⟩)
    ∧ (cur ≠ "dev" → (∀ c, cacheFile = some c → checkInterval ≤ now - c.lastCheck) →
        ∀ st b, net = .resp st b → st < 200 ∨ 300 ≤ st →
          (checkForUpdate cur cacheFile now net).result = "")
    ∧ (cur ≠ "dev" → (∀ c, cacheFile = some c → checkInterval ≤ now - c.lastCheck) →
        ∀ st, net = .resp st none →
          (checkForUpdate cur cacheFile now net).result = "")
    ∧ (cur ≠ "dev" → (∀ c, cacheFile = some c → checkInterval ≤ now - c.lastCheck) →
        ∀ rel, net = .resp 200 (some rel) →
          (checkForUpdate cur cacheFile now net).cacheFile
              = some ⟨now, rel.tagName, rel.htmlURL⟩
            ∧ (checkForUpdate cur cacheFile now net).result
              = (if rel.tagName ≠ cur ∧ rel.tagName ≠ "v" ++ cur
                 then rel.tagName else "")) := by
  refine ⟨by simp [checkForUpdate], ?_, ?_, ?_, ?_, ?_⟩
  · intro c h1 h2 h3
    subst h2
    by_cases hc : c.latestVersion ≠ "" ∧ c.latestVersion ≠ cur
    · refine ⟨?_, ?_, ?_, ?_⟩ <;> simp [checkForUpdate, h1, h3, hc]
    · refine ⟨?_, ?_, ?_, ?_⟩ <;> simp [checkForUpdate, h1, h3, hc]
      intro h4 h5
      exact absurd ⟨h4, h5⟩ hc
  · intro h1 h2 h3
    subst h3
    cases cacheFile with
    | none => simp [checkForUpdate, h1, checkFetch]
    | some c =>
      have hst := h2 c rfl
      have hlt : ¬ now - c.lastCheck < checkInterval := by omega
      simp [checkForUpdate, h1, hlt, checkFetch]
  · intro h1 h2 st b h3 h4
    subst h3
    have hne : st ≠ 200 := by omega
    cases cacheFile with
    | none => simp [checkForUpdate, h1, checkFetch, hne]
    | some c =>
      have hst := h2 c rfl
      have hlt : ¬ now - c.lastCheck < checkInterval := by omega
      simp [checkForUpdate, h1, hlt, checkFetch, hne]
  · intro h1 h2 st h3
    subst h3
    by_cases hne : st = 200
    · cases cacheFile with
      | none => simp [checkForUpdate, h1, checkFetch, hne]
      | some c =>
        have hst := h2 c rfl
        have hlt : ¬ now - c.lastCheck < checkInterval := by omega
        simp [checkForUpdate, h1, hlt, checkFetch, hne]
    · cases cacheFile with
      | none => simp [checkForUpdate, h1, checkFetch, hne]
      | some c =>
        have hst := h2 c rfl
        have hlt : ¬ now - c.lastCheck < checkInterval := by omega
        simp [checkForUpdate, h1, hlt, checkFetch, hne]
  · intro h1 h2 rel h3
    subst h3
    by_cases hv : rel.tagName ≠ cur ∧ rel.tagName ≠ "v" ++ cur
    · cases cacheFile with
      | none => constructor <;> simp [checkForUpdate, h1, checkFetch, hv]
      | some c =>
        have hst := h2 c rfl
        have hlt : ¬ now - c.lastCheck < checkInterval := by omega
        constructor <;> simp [checkForUpdate, h1, hlt, checkFetch, hv]
    · cases cacheFile with
      | none => constructor <;> simp [checkForUpdate, h1, checkFetch, hv]
      | some c =>
        have hst := h2 c rfl
        have hlt : ¬ now - c.lastCheck < checkInterval := by omega
        constructor <;> simp [checkForUpdate, h1, hlt, checkFetch, hv]

/-- Witness for `checkForUpdate_spec`: a fresh cache with a newer
version answers from cache (the Go test `TestCheckForUpdate_CachedResult`). -/
theorem checkForUpdate_spec_witness :
    (checkForUpdate "v0.1.0"
        (some ⟨999000, "v0.2.0",
          "https://github.com/banton/stompy-cli/releases/tag/v0.2.0"⟩)
        999100 FetchOutcome.netErr).result = "v0.2.0" :=
  ((checkForUpdate_spec "v0.1.0"
      (some ⟨999000, "v0.2.0",
        "https://github.com/banton/stompy-cli/releases/tag/v0.2.0"⟩)
      999100 FetchOutcome.netErr).2.1
    ⟨999000, "v0.2.0",
      "https://github.com/banton/stompy-cli/releases/tag/v0.2.0"⟩
    (by decide) rfl (by decide)).2.2.2 (by decide) (by decide)

/-- C1 (amended): every outcome of `SelfUpdate` leaves a file at the
original executable path — the original content on any failure, the new
binary on success — and when the final rename fails the backup is
renamed back onto the original path and an error is returned, PROVIDED
the rollback rename itself succeeds; the source discards the rollback
rename's error (`_ = os.Rename(backupPath, execPath)`), so the
guarantee is conditional on that rollback succeeding. -/
theorem selfUpdate_atomic (pre : PreOutcome) (f : RenameFails) (fs : FS)
    (orig : String) (hexec : fs.execF = some orig)
    (hrb : f.renameBackupToExec = false) :
    (selfUpdate pre f fs).2.execF ≠ none
    ∧ (∀ e, (selfUpdate pre f fs).1 = .err e →
        (selfUpdate pre f fs).2.execF = some orig)
    ∧ (∀ nb, pre = .extracted nb → (selfUpdate pre f fs).1 = .ok →
        (selfUpdate pre f fs).2.execF = some nb)
    ∧ (∀ nb, pre = .extracted nb → f.writeTmp = false →
        f.renameExecToBackup = false → f.renameTmpToExec = true →
        (selfUpdate pre f fs).1 = .err .replace
          ∧ (selfUpdate pre f fs).2 = ⟨some orig, some nb, none⟩) := by
  obtain ⟨w, rb, rt, rbe⟩ := f
  replace hrb : rbe = false := hrb
  subst hrb
  cases pre <;> cases w <;> cases rb <;> cases rt <;>
    refine ⟨?_, ?_, ?_, ?_⟩ <;>
      simp_all [selfUpdate, selfUpdateReplace]

/-- Witness for `selfUpdate_atomic`: the final rename fails, the
rollback succeeds, and the original binary is back at its path. -/
theorem selfUpdate_atomic_witness :
    (selfUpdate (.extracted "new-binary") renameTmpFailOnly fsOrig).1
        = .err .replace
    ∧ (selfUpdate (.extracted "new-binary") renameTmpFailOnly fsOrig).2
        = ⟨some "original-binary", some "new-binary", none⟩ :=
  (selfUpdate_atomic (.extracted "new-binary") renameTmpFailOnly fsOrig
    "original-binary" rfl rfl).2.2.2 "new-binary" rfl rfl rfl rfl

/-- C1 counterexample: when the final rename fails AND the rollback
rename (whose error the source discards) also fails, `SelfUpdate`
returns with NO file at the original executable path, so the claim's
"for every outcome ... a file is present at the original executable
path" is false on this input. -/
theorem selfUpdate_claim_counterexample :
    (selfUpdate (.extracted "new-binary") doubleRenameFail fsOrig).1
        = .err .replace
    ∧ (selfUpdate (.extracted "new-binary") doubleRenameFail fsOrig).2.execF
        = none := by
  decide

theorem b64Char_mem (i : Nat) : b64Char i ∈ b64urlAlphabet := by
  rw [b64Char, List.getD_eq_get?]
  rcases h : b64urlAlphabet.get? i with _ | c
  · decide
  · simp only [Option.getD_some]
    exact List.get?_mem h

theorem b64urlAlphabet_ok :
    ∀ c ∈ b64urlAlphabet, rfc7636Char c = true ∧ c ≠ '+' ∧ c ≠ '/' ∧ c ≠ '=' := by
  decide

theorem b64urlChars_subset :
    ∀ (bs : List Nat) (c : Char), c ∈ b64urlChars bs → c ∈ b64urlAlphabet := by
  intro bs
  induction bs using b64urlChars.induct with
  | case1 => intro c hc; simp [b64urlChars] at hc
  | case2 b1 =>
    intro c hc
    simp [b64urlChars] at hc
    rcases hc with rfl | rfl <;> exact b64Char_mem _
  | case3 b1 b2 =>
    intro c hc
    simp [b64urlChars] at hc
    rcases hc with rfl | rfl | rfl <;> exact b64Char_mem _
  | case4 b1 b2 b3 rest ih =>
    intro c hc
    simp [b64urlChars] at hc
    rcases hc with rfl | rfl | rfl | rfl | hc
    · exact b64Char_mem _
    · exact b64Char_mem _
    · exact b64Char_mem _
    · exact b64Char_mem _
    · exact ih c hc

theorem b64urlChars_length : ∀ bs : List Nat,
    (b64urlChars bs).length
      = bs.length / 3 * 4 + (if bs.length % 3 = 0 then 0 else bs.length % 3 + 1) := by
  intro bs
  induction bs using b64urlChars.induct with
  | case1 => simp [b64urlChars]
  | case2 b1 => simp [b64urlChars]
  | case3 b1 b2 => simp [b64urlChars]
  | case4 b1 b2 b3 rest ih =>
    have h3 : (rest.length + 1 + 1 + 1) / 3 = rest.length / 3 + 1 := by omega
    have h4 : (rest.length + 1 + 1 + 1) % 3 = rest.length % 3 := by omega
    by_cases h0 : rest.length % 3 = 0 <;>
      simp [b64urlChars, ih, h3, h4, h0] <;> omega

theorem beBytes_length : ∀ k n, (beBytes k n).length = k := by
  intro k
  induction k with
  | zero => intro n; simp [beBytes]
  | succ m ih => intro n; simp [beBytes, ih]

theorem sha256_length (msg : List Nat) : (sha256 msg).length = 32 := by
  simp [sha256, stateBytes, beBytes_length]

theorem generatePKCE_spec (b : Fin 32 → Fin 256) :
    (generatePKCE (List.ofFn fun i => (b i).val)).1
        = b64url (List.ofFn fun i => (b i).val)
    ∧ (generatePKCE (List.ofFn fun i => (b i).val)).2
        = b64url (sha256
            (((generatePKCE (List.ofFn fun i => (b i).val)).1).toList.map Char.toNat))
    ∧ ((generatePKCE (List.ofFn fun i => (b i).val)).1).length = 43
    ∧ 43 ≤ ((generatePKCE (List.ofFn fun i => (b i).val)).1).length
    ∧ ((generatePKCE (List.ofFn fun i => (b i).val)).2).length = 43
    ∧ (∀ ch ∈ ((generatePKCE (List.ofFn fun i => (b i).val)).1).toList,
        rfc7636Char ch = true ∧ ch ≠ '+' ∧ ch ≠ '/' ∧ ch ≠ '=')
    ∧ (∀ ch ∈ ((generatePKCE (List.ofFn fun i => (b i).val)).2).toList,
        rfc7636Char ch = true ∧ ch ≠ '+' ∧ ch ≠ '/' ∧ ch ≠ '=') := by
  have hvlen : (List.ofFn fun i => ((b i : Fin 256)).val).length = 32 := by simp
  have hlen : ((generatePKCE (List.ofFn fun i => (b i).val)).1).length = 43 := by
    show (b64url (List.ofFn fun i => (b i).val)).length = 43
    rw [b64url, String.length_mk, b64urlChars_length, hvlen]
    decide
  have hclen : ((generatePKCE (List.ofFn fun i => (b i).val)).2).length = 43 := by
    show (b64url (sha256 _)).length = 43
    rw [b64url, String.length_mk, b64urlChars_length, sha256_length]
    decide
  refine ⟨rfl, rfl, hlen, by omega, hclen, ?_, ?_⟩
  · intro ch hch
    exact b64urlAlphabet_ok ch (b64urlChars_subset _ ch hch)
  · intro ch hch
    exact b64urlAlphabet_ok ch (b64urlChars_subset _ ch hch)
